import Mathlib

/-!
Shallow embedding of the async content pipeline of the presenterm repository:
the snippet render operations (`src/processing/execution.rs`), the command
source multiplexer (`src/input/source.rs`), and the code-block parser and
highlight mutator (`src/processing/code.rs`).

Mutable Rust state (`RefCell`, `Rc<RefCell<..>>`) is embedded as explicit state
passing: every method that mutates `self` becomes a function from the old state
to the pair of new state and return value.  External collaborators (the snippet
executor, the ANSI splitter, the terminal device, the local input reader) are
not part of the five source files; their observable results enter the embedded
functions as parameters, so all theorems hold for every behaviour of those
collaborators.
-/

/-- The lifecycle state of an async render operation (`RenderAsyncState` in
`crate::presentation`).  The type itself lives outside the given sources; its
four variants are modelled from the spec (sect. 3 "Async lifecycle state") and from
every use in `execution.rs`: `NotStarted`, `Rendering { modified }`,
`JustFinishedRendering`, `Rendered`, with `NotStarted` the `Default`. -/
inductive RenderAsyncState where
  | notStarted
  | rendering (modified : Bool)
  | justFinishedRendering
  | rendered
deriving DecidableEq, Repr

/-- Rank of a lifecycle state in the ordering
`NotStarted < Rendering < JustFinishedRendering < Rendered` (spec sect. 4.1). -/
def RenderAsyncState.rank : RenderAsyncState → Nat
  | .notStarted => 0
  | .rendering _ => 1
  | .justFinishedRendering => 2
  | .rendered => 3

/-- Status of a spawned snippet process (`ProcessStatus` in `crate::execute`).
Modelled from the spec (sect. 3 "Execution state": status tag
`{Running, Success, Failure}`) and its use in `poll_state`. -/
inductive ProcessStatus where
  | running
  | success
  | failure
deriving DecidableEq, Repr

/-- Embeds `ProcessStatus::is_finished`: the process has exited.  Modelled from the
spec: the producer "sets status on process exit", so `Success` and `Failure`
are the finished statuses. -/
def ProcessStatus.is_finished : ProcessStatus → Bool
  | .running => false
  | _ => true

/-- The mutex-protected shared execution state (`ExecutionState` in
`crate::execute`): a queue of newly produced output text plus a status tag.
Modelled from the spec (sect. 3) and the destructuring
`let ExecutionState { output, status } = &mut *state` in `poll_state`.
Each `poll_state` call receives the current contents as a parameter; the
`mem::take` drain is implicit in the next call receiving fresh contents. -/
structure ExecutionState where
  output : List String
  status : ProcessStatus
deriving DecidableEq, Repr

/-- Modelled from the spec: the open ANSI style token the splitter carries
across chunk boundaries (`TextStyle` in `crate::style`, not among the given
sources).  Its structure is irrelevant to every claim, so it is a wrapper
around an arbitrary payload. -/
structure TextStyle where
  token : String
deriving DecidableEq, Repr

/-- Embeds `TextStyle::default()`. -/
def TextStyle.default : TextStyle := ⟨""⟩

/-- Modelled from the spec: the two collaborator functions `poll_state` calls on
each poll — `AnsiSplitter::split_lines` (crate `ansi`), which splits drained
output into lines carrying the open style across chunks, and
`WeightedLine::width` (crate `markdown::text`).  Neither is among the given
sources; all theorems quantify over them. -/
structure ExternalFns where
  split_lines : TextStyle → List String → List String × TextStyle
  line_width : String → Nat

namespace RunSnippetOperation

/-- The mutable core of a `RunSnippetOperation`
(`RunSnippetOperationInner`, execution.rs lines 29-36).  The enclosing
operation's immutable rendering fields (colors, alignment, block length,
separator) and the `state_description` text cache do not influence
`start_render`/`poll_state` control flow and carry no claim, so the embedded
state is the inner struct.  `handle` keeps only the presence of the
`ExecutionHandle`; the handle's shared `ExecutionState` content is the `env`
parameter of `poll_state`. -/
structure Inner where
  handle : Option Unit
  output_lines : List String
  state : RenderAsyncState
  max_line_length : Nat
  starting_style : TextStyle
deriving DecidableEq, Repr

/-- The inner state built by `RunSnippetOperation::new` (execution.rs 69-75). -/
def initialInner : Inner :=
  { handle := none
    output_lines := []
    state := .notStarted
    max_line_length := 0
    starting_style := TextStyle.default }

/-- Embeds `RunSnippetOperation::poll_state` (execution.rs 153-189).  `env` is the
current content of the mutex-protected shared state read through the handle;
when no handle is held the body is skipped and the stored state is returned.
`u16::try_from(line.width()).unwrap_or(u16::MAX)` becomes `min (width) 65535`.
Returns the new inner state and the returned `RenderAsyncState`. -/
def poll_state (fns : ExternalFns) (inner : Inner) (env : ExecutionState) :
    Inner × RenderAsyncState :=
  match inner.handle with
  | none => (inner, inner.state)
  | some _ =>
    let new_lines := env.output
    let modified := !new_lines.isEmpty
    let is_finished := env.status.is_finished
    let split := fns.split_lines inner.starting_style new_lines
    let new_lines := split.1
    let style := split.2
    let max_line_length :=
      new_lines.foldl (fun m line => max m (min (fns.line_width line) 65535)) 0
    let inner := { inner with starting_style := style }
    let inner :=
      if is_finished then
        { inner with handle := none, state := .justFinishedRendering }
      else
        { inner with state := .rendering modified }
    let inner :=
      { inner with
          output_lines := inner.output_lines ++ new_lines
          max_line_length := max inner.max_line_length max_line_length }
    (inner, inner.state)

/-- Embeds `RunSnippetOperation::start_render` (execution.rs 191-208).  `execResult`
is the outcome of the collaborator call `executor.execute_async(&self.code)`;
`Ok` carries the spawned handle, `Err e` carries `e.to_string()`. -/
def start_render (inner : Inner) (execResult : Except String Unit) :
    Inner × Bool :=
  match inner.state with
  | .notStarted =>
    match execResult with
    | .ok _ =>
      ({ inner with handle := some (), state := .rendering false }, true)
    | .error e =>
      ({ inner with output_lines := [e], state := .rendered }, true)
  | _ => (inner, false)

/-- One interaction with a `RunSnippetOperation`: either a `start_render` call
(with the executor's answer) or a `poll_state` call (with the shared state's
current content). -/
inductive Step where
  | start (r : Except String Unit)
  | poll (env : ExecutionState)

/-- Apply one interaction, keeping only the resulting inner state. -/
def applyStep (fns : ExternalFns) (inner : Inner) : Step → Inner
  | .start r => (start_render inner r).1
  | .poll env => (poll_state fns inner env).1

/-- Apply a sequence of interactions. -/
def runSteps (fns : ExternalFns) (inner : Inner) (steps : List Step) : Inner :=
  steps.foldl (applyStep fns) inner

/-- The inner states an operation can actually be in: those produced from the
freshly constructed operation by some sequence of calls. -/
def Reachable (fns : ExternalFns) (inner : Inner) : Prop :=
  ∃ steps, runSteps fns initialInner steps = inner

/-- Structural invariant of `RunSnippetOperation`: while an execution handle is
held, the stored lifecycle state is `Rendering`. -/
def Inv (inner : Inner) : Prop :=
  ∀ u, inner.handle = some u → ∃ m, inner.state = .rendering m

end RunSnippetOperation

namespace SnippetExecutionDisabledOperation

/-- Embeds `SnippetExecutionDisabledOperation` (execution.rs 211-222) holds only a
`started: RefCell<bool>` flag (plus rendering-only colors and alignment);
`started` begins as `Default::default() = false`. -/
def initialStarted : Bool := false

/-- Embeds `SnippetExecutionDisabledOperation::start_render` (execution.rs 241-244):
`mem::replace(&mut *self.started.borrow_mut(), true)` then negate.  Returns
the new flag and the returned boolean. -/
def start_render (started : Bool) : Bool × Bool :=
  (true, !started)

/-- Embeds `SnippetExecutionDisabledOperation::poll_state` (execution.rs 246-248). -/
def poll_state (_started : Bool) : RenderAsyncState :=
  .rendered

end SnippetExecutionDisabledOperation

/-- Embeds `AcquireTerminalSnippetState` (execution.rs 251-257), with
`NotStarted` the `#[default]`. -/
inductive AcquireTerminalSnippetState where
  | notStarted
  | success
  | failure (lines : List String)
deriving DecidableEq, Repr

/-- Rust `str::lines()` applied via `e.lines().map(ToString::to_string)`
(execution.rs 354): split on `\n`, drop a final empty segment (so a trailing
newline produces no extra line), and strip one trailing `\r` per line. -/
def rustLines (s : String) : List String :=
  let parts := s.toList.splitOn '\n'
  let parts :=
    match parts.reverse with
    | [] => parts
    | last :: front => if last.isEmpty then front.reverse else parts
  parts.map fun l =>
    match l.reverse with
    | '\r' :: front => String.mk front.reverse
    | _ => String.mk l

namespace RunAcquireTerminalSnippet

/-- Embeds `RunAcquireTerminalSnippet::invoke` (execution.rs 290-308).  The four
side-effecting collaborator calls are parameters carrying their observed
results: `deinit` is `execute(LeaveAlternateScreen).and_then(disable_raw_mode)`,
`execRes` is `executor.execute_sync(&self.snippet)`, `reinit` is
`execute(EnterAlternateScreen).and_then(enable_raw_mode)`, and `hideCursor` is
`execute(cursor::Hide)` guarded by `should_hide_cursor()` (`none` when the
guard is false).  Error payloads are the collaborators' `to_string()` texts. -/
def invoke (deinit : Except String Unit) (execRes : Except String Unit)
    (reinit : Except String Unit) (hideCursor : Option (Except String Unit)) :
    Except String Unit :=
  match deinit with
  | .error e => .error ("failed to deinit terminal: " ++ e)
  | .ok _ =>
    -- save result for later, but first reinit the terminal
    let result : Except String Unit :=
      match execRes with
      | .error e => .error ("failed to run snippet: " ++ e)
      | .ok _ => .ok ()
    match reinit with
    | .error e => .error ("failed to reinit terminal: " ++ e)
    | .ok _ =>
      match hideCursor with
      | some (.error e) => .error e
      | _ => result

/-- Embeds `RunAcquireTerminalSnippet::start_render` (execution.rs 349-360), with the
collaborator results of `invoke` as parameters.  Returns the new state and the
returned boolean. -/
def start_render (st : AcquireTerminalSnippetState)
    (deinit execRes reinit : Except String Unit)
    (hideCursor : Option (Except String Unit)) :
    AcquireTerminalSnippetState × Bool :=
  match st with
  | .notStarted =>
    match invoke deinit execRes reinit hideCursor with
    | .error e => (.failure (rustLines e), true)
    | .ok _ => (.success, true)
  | _ => (st, false)

/-- Embeds `RunAcquireTerminalSnippet::poll_state` (execution.rs 362-364): returns
`RenderAsyncState::Rendered` unconditionally, for every stored state. -/
def poll_state (_st : AcquireTerminalSnippetState) : RenderAsyncState :=
  .rendered

end RunAcquireTerminalSnippet

/-- Embeds `SpeakerNotesCommand` (`crate::input::speaker_notes`, not among the given
sources).  Modelled from the spec ("a message carrying one navigation
directive (go-to-slide-by-index)") and the exhaustive one-arm match in
`try_next_command`. -/
inductive SpeakerNotesCommand where
  | goToSlide (idx : Nat)
deriving DecidableEq, Repr

/-- Embeds `Command` (source.rs 52-106). -/
inductive Command where
  | redraw
  | next
  | nextFast
  | previous
  | previousFast
  | firstSlide
  | lastSlide
  | goToSlide (idx : Nat)
  | renderAsyncOperations
  | exit
  | suspend
  | reload
  | hardReload
  | toggleSlideIndex
  | toggleKeyBindingsConfig
  | closeModal
deriving DecidableEq, Repr

deriving instance DecidableEq for Except

/-- What one `try_next_command` call does to its caller: return a value of the
declared `io::Result<Option<Command>>` type, or panic (the `unwrap()` on the
speaker-notes receiver, source.rs 36).  Error payloads are strings standing
for `io::Error` resp. the receiver's error. -/
inductive TryNextOutcome where
  | value (r : Except String (Option Command))
  | panics (e : String)
deriving DecidableEq, Repr

namespace CommandSource

/-- Embeds `CommandSource::try_next_command` (source.rs 33-48).  `ext` is the state of
the optional speaker-notes receiver this call: `none` when no receiver is
configured, otherwise the `receive()` result (`Err` → the `unwrap()` panics;
`Ok None` → nothing pending; `Ok (Some msg)` → a pending message).
`localPoll` is the collaborator `self.user_input.poll_next_command`, a function
of the timeout in milliseconds; the call site passes
`Duration::from_millis(250)`. -/
def try_next_command (ext : Option (Except String (Option SpeakerNotesCommand)))
    (localPoll : Nat → Except String (Option Command)) : TryNextOutcome :=
  match ext with
  | some extRes =>
    match extRes with
    | .error e => .panics e
    | .ok (some msg) =>
      match msg with
      | .goToSlide idx => .value (.ok (some (.goToSlide idx)))
    | .ok none =>
      match localPoll 250 with
      | .error e => .value (.error e)
      | .ok (some command) => .value (.ok (some command))
      | .ok none => .value (.ok none)
  | none =>
    match localPoll 250 with
    | .error e => .value (.error e)
    | .ok (some command) => .value (.ok (some command))
    | .ok none => .value (.ok none)

end CommandSource

/-! Embedding of `src/processing/code.rs`.  Rust string slices become
`List Char`, so the parser's slice arithmetic is explicit `take`/`drop`. -/

/-- Rust `str::split_once(pat)`: split at the first occurrence of `sep`,
returning the parts before and after it, or `none` when absent. -/
def splitOnceStr (sep : List Char) : List Char → Option (List Char × List Char)
  | [] => if sep.isEmpty then some ([], []) else none
  | c :: rest =>
    if sep.isPrefixOf (c :: rest) then some ([], (c :: rest).drop sep.length)
    else
      match splitOnceStr sep rest with
      | some (before, after) => some (c :: before, after)
      | none => none

/-- Rust `str::trim()`: strip whitespace from both ends. -/
def trimChars (input : List Char) : List Char :=
  ((input.dropWhile Char.isWhitespace).reverse.dropWhile Char.isWhitespace).reverse

/-- Rust `str::parse::<u16>()`: an optional leading `+`, then one or more
digits, rejecting empty digit strings, other characters, and values ≥ 2^16. -/
def parseU16 (input : List Char) : Option Nat :=
  let digits :=
    match input with
    | '+' :: rest => rest
    | _ => input
  if digits.isEmpty then none
  else if digits.all Char.isDigit then
    let n := digits.foldl (fun acc c => acc * 10 + (c.toNat - 48)) 0
    if n < 65536 then some n else none
  else none

/-- Embeds `Percent` (`crate::markdown::elements`, not among the given sources); its
payload is opaque to the parser, which obtains values only through the
collaborator `Percent::from_str`.  All parser theorems quantify over that
collaborator, passed as a `pp : List Char → Option Percent` parameter. -/
structure Percent where
  value : Nat
deriving DecidableEq, Repr

/-- Embeds `Highlight` (code.rs 615-620); `range start stop` models the half-open
`Range<u16>` `start..stop`. -/
inductive Highlight where
  | all
  | single (n : Nat)
  | range (start stop : Nat)
deriving DecidableEq, Repr

/-- Embeds `HighlightGroup` (code.rs 593-594). -/
structure HighlightGroup where
  highlights : List Highlight
deriving DecidableEq, Repr

/-- Embeds `HighlightGroup::new` (code.rs 597-599). -/
def HighlightGroup.new (highlights : List Highlight) : HighlightGroup :=
  ⟨highlights⟩

/-- Embeds `HighlightGroup::contains` (code.rs 601-611): first matching member wins;
`Range::contains` is `start ≤ n < stop`. -/
def HighlightGroup.contains (g : HighlightGroup) (line_number : Nat) : Bool :=
  g.highlights.any fun h =>
    match h with
    | .all => true
    | .single number => number == line_number
    | .range start stop => decide (start ≤ line_number) && decide (line_number < stop)

/-- Embeds `SnippetLanguage` (code.rs 417-483). -/
inductive SnippetLanguage where
  | ada | asp | awk | bash | batchFile | c | cMake | crontab | cSharp | clojure
  | cpp | css | dLang | diff | docker | dotenv | elixir | elm | erlang | file
  | fish | go | graphQL | haskell | html | java | javaScript | json | kotlin
  | latex | lua | makefile | mermaid | markdown | nix | nushell | oCaml | perl
  | php | protobuf | puppet | python | r | racket | ruby | rust | rustScript
  | scala | shell | sql | swift | svelte | tcl | terraform | toml | typeScript
  | typst | unknown (s : String) | xml | yaml | verilog | vue | zig | zsh
deriving Repr

/-- Embeds `FromStr for SnippetLanguage` (code.rs 485-557); total, falling back to
`Unknown` (the Rust `Err` type is `Infallible`). -/
def SnippetLanguage.fromStr (s : String) : SnippetLanguage :=
  match s with
  | "ada" => .ada
  | "asp" => .asp
  | "awk" => .awk
  | "bash" => .bash
  | "c" => .c
  | "cmake" => .cMake
  | "crontab" => .crontab
  | "csharp" => .cSharp
  | "clojure" => .clojure
  | "cpp" => .cpp
  | "c++" => .cpp
  | "css" => .css
  | "d" => .dLang
  | "diff" => .diff
  | "docker" => .docker
  | "dotenv" => .dotenv
  | "elixir" => .elixir
  | "elm" => .elm
  | "erlang" => .erlang
  | "file" => .file
  | "fish" => .fish
  | "go" => .go
  | "graphql" => .graphQL
  | "haskell" => .haskell
  | "html" => .html
  | "java" => .java
  | "javascript" => .javaScript
  | "js" => .javaScript
  | "json" => .json
  | "kotlin" => .kotlin
  | "latex" => .latex
  | "lua" => .lua
  | "make" => .makefile
  | "markdown" => .markdown
  | "mermaid" => .mermaid
  | "nix" => .nix
  | "nushell" => .nushell
  | "nu" => .nushell
  | "ocaml" => .oCaml
  | "perl" => .perl
  | "php" => .php
  | "protobuf" => .protobuf
  | "puppet" => .puppet
  | "python" => .python
  | "r" => .r
  | "racket" => .racket
  | "ruby" => .ruby
  | "rust" => .rust
  | "rust-script" => .rustScript
  | "scala" => .scala
  | "shell" => .shell
  | "sh" => .shell
  | "sql" => .sql
  | "svelte" => .svelte
  | "swift" => .swift
  | "tcl" => .tcl
  | "terraform" => .terraform
  | "toml" => .toml
  | "typescript" => .typeScript
  | "ts" => .typeScript
  | "typst" => .typst
  | "xml" => .xml
  | "yaml" => .yaml
  | "verilog" => .verilog
  | "vue" => .vue
  | "zig" => .zig
  | "zsh" => .zsh
  | other => .unknown other

/-- Embeds `SnippetAttributes` (code.rs 560-591). -/
structure SnippetAttributes where
  execute : Bool
  execute_replace : Bool
  auto_render : Bool
  line_numbers : Bool
  highlight_groups : List HighlightGroup
  width : Option Percent
  no_background : Bool
  acquire_terminal : Bool
deriving DecidableEq, Repr

/-- Embeds `SnippetAttributes::default()` (the `Default` derive): all flags false,
no groups, no width. -/
def SnippetAttributes.default : SnippetAttributes :=
  { execute := false
    execute_replace := false
    auto_render := false
    line_numbers := false
    highlight_groups := []
    width := none
    no_background := false
    acquire_terminal := false }

/-- Embeds `Snippet` (code.rs 380-390). -/
structure Snippet where
  contents : List Char
  language : SnippetLanguage
  attributes : SnippetAttributes
deriving Repr

/-- Embeds `Attribute` (code.rs 367-377). -/
inductive Attribute where
  | lineNumbers
  | exec
  | execReplace
  | autoRender
  | highlightedLines (lines : List HighlightGroup)
  | width (w : Percent)
  | noBackground
  | acquireTerminal
deriving DecidableEq, Repr

/-- Embeds `AttributeDiscriminants` (the `EnumDiscriminants` derive on `Attribute`). -/
inductive AttributeDiscriminants where
  | lineNumbers
  | exec
  | execReplace
  | autoRender
  | highlightedLines
  | width
  | noBackground
  | acquireTerminal
deriving DecidableEq, Repr

/-- Embeds `AttributeDiscriminants::from(&attribute)`. -/
def Attribute.discriminant : Attribute → AttributeDiscriminants
  | .lineNumbers => .lineNumbers
  | .exec => .exec
  | .execReplace => .execReplace
  | .autoRender => .autoRender
  | .highlightedLines _ => .highlightedLines
  | .width _ => .width
  | .noBackground => .noBackground
  | .acquireTerminal => .acquireTerminal

/-- Embeds `CodeBlockParseError` (code.rs 349-365).  `InvalidWidth` carries a
`PercentParseError` produced by the collaborator `Percent` parser; since that
parser is abstract here, the payload is dropped. -/
inductive CodeBlockParseError where
  | invalidToken (s : String)
  | invalidHighlightedLines (s : String)
  | invalidWidth
  | duplicateAttribute (s : String)
  | notRenderSnippet (s : String)
deriving DecidableEq, Repr

/-- Embeds `ParseResult<T>` (code.rs 194). -/
abbrev ParseResult (α : Type) := Except CodeBlockParseError α

namespace CodeBlockParser

/-- Embeds `CodeBlockParser::skip_whitespace` (code.rs 337-339):
`trim_start_matches(' ')`. -/
def skip_whitespace (input : List Char) : List Char :=
  input.dropWhile (fun c => c = ' ')

/-- Embeds `CodeBlockParser::next_identifier` (code.rs 341-346): the part before the
first space, or the whole input when there is none. -/
def next_identifier (input : List Char) : List Char :=
  input.takeWhile (fun c => c ≠ ' ')

/-- Embeds `CodeBlockParser::parse_width` (code.rs 331-335): the value runs up to the
first space (or the end); it is handed to the collaborator `Percent` parser
`pp` (`Percent::from_str`), whose failure maps to `InvalidWidth`. -/
def parse_width (pp : List Char → Option Percent) (input : List Char) :
    ParseResult (Percent × List Char) :=
  let end_index := (input.takeWhile (fun c => c ≠ ' ')).length
  match pp (input.take end_index) with
  | some w => .ok (w, input.drop end_index)
  | none => .error .invalidWidth

/-- Embeds `CodeBlockParser::parse_number` (code.rs 324-329): trim, then `u16`
parsing. -/
def parse_number (input : List Char) : ParseResult Nat :=
  match parseU16 (trimChars input) with
  | some n => .ok n
  | none =>
    .error (.invalidHighlightedLines
      ("not a number: \x27" ++ String.mk input ++ "\x27"))

/-- The body of the `for piece in input.split(',')` loop of
`CodeBlockParser::parse_highlight_group` (code.rs 298-322): each piece is
trimmed; `all` names every line, `a-b` a range (with the `u16`
`checked_add(1)` overflow check on `b`), anything else a single number. -/
def parse_highlight_pieces : List (List Char) → ParseResult (List Highlight)
  | [] => .ok []
  | piece :: rest => do
    let piece := trimChars piece
    let highlight ←
      if piece = "all".toList then
        pure Highlight.all
      else
        match splitOnceStr ['-'] piece with
        | some (left, right) => do
          let left ← parse_number left
          let right ← parse_number right
          if right + 1 < 65536 then
            pure (Highlight.range left (right + 1))
          else
            throw (CodeBlockParseError.invalidHighlightedLines
              (Nat.repr right ++ " is too large"))
        | none => do
          let number ← parse_number piece
          pure (Highlight.single number)
    let highlights ← parse_highlight_pieces rest
    pure (highlight :: highlights)

/-- Embeds `CodeBlockParser::parse_highlight_group` (code.rs 298-322). -/
def parse_highlight_group (input : List Char) : ParseResult HighlightGroup := do
  let highlights ← parse_highlight_pieces (input.splitOn ',')
  pure (HighlightGroup.new highlights)

/-- The `for group in head.split('|')` loop of
`CodeBlockParser::parse_highlight_groups` (code.rs 290-294). -/
def parse_groups : List (List Char) → ParseResult (List HighlightGroup)
  | [] => .ok []
  | g :: rest => do
    let group ← parse_highlight_group g
    let groups ← parse_groups rest
    pure (group :: groups)

/-- Embeds `CodeBlockParser::parse_highlight_groups` (code.rs 280-296): everything up
to the first `\x7d` is the (trimmed) group list; an empty list is returned for
an empty head. -/
def parse_highlight_groups (input : List Char) :
    ParseResult (List HighlightGroup × List Char) :=
  match splitOnceStr ['\x7d'] input with
  | none =>
    .error (.invalidHighlightedLines "no enclosing \x27\x7d\x27")
  | some (head, tail) =>
    let head := trimChars head
    if head.isEmpty then .ok ([], tail)
    else do
      let highlight_groups ← parse_groups (head.splitOn '|')
      pure (highlight_groups, tail)

/-- Embeds `CodeBlockParser::parse_attribute` (code.rs 249-278). -/
def parse_attribute (pp : List Char → Option Percent) (input : List Char) :
    ParseResult (Option Attribute × List Char) :=
  -- `let input = Self::skip_whitespace(input)`: below, `first :: afterFirst`
  -- stands for the whitespace-skipped input and `afterFirst` for `&input[1..]`.
  match skip_whitespace input with
  | [] => .ok (none, [])
  | first :: afterFirst =>
    if first = '+' then
      let token := next_identifier afterFirst
      if token = "line_numbers".toList then
        .ok (some .lineNumbers, (first :: afterFirst).drop (token.length + 1))
      else if token = "exec".toList then
        .ok (some .exec, (first :: afterFirst).drop (token.length + 1))
      else if token = "exec_replace".toList then
        .ok (some .execReplace, (first :: afterFirst).drop (token.length + 1))
      else if token = "render".toList then
        .ok (some .autoRender, (first :: afterFirst).drop (token.length + 1))
      else if token = "no_background".toList then
        .ok (some .noBackground, (first :: afterFirst).drop (token.length + 1))
      else if token = "acquire_terminal".toList then
        .ok (some .acquireTerminal, (first :: afterFirst).drop (token.length + 1))
      else if ("width:".toList).isPrefixOf token then
        -- `input.split_once("+width:").unwrap()`: under this guard the input
        -- begins with "+width:", so the split finds it at position 0 and the
        -- `unwrap` cannot panic; the `none` arm below is unreachable.
        match splitOnceStr ("+width:".toList) (first :: afterFirst) with
        | some (_, value) =>
          match parse_width pp value with
          | .ok (w, rest) => .ok (some (.width w), rest)
          | .error e => .error e
        | none => .error .invalidWidth
      else
        .error (.invalidToken (String.mk (next_identifier (first :: afterFirst))))
    else if first = '\x7b' then
      match parse_highlight_groups afterFirst with
      | .ok (lines, rest) => .ok (some (.highlightedLines lines), rest)
      | .error e => .error e
    else
      .error (.invalidToken (String.mk (next_identifier (first :: afterFirst))))

/-- One `match attribute { ... }` arm application of
`CodeBlockParser::parse_attributes` (code.rs 230-239). -/
def apply_attribute (attributes : SnippetAttributes) :
    Attribute → SnippetAttributes
  | .lineNumbers => { attributes with line_numbers := true }
  | .exec => { attributes with execute := true }
  | .execReplace => { attributes with execute_replace := true }
  | .autoRender => { attributes with auto_render := true }
  | .noBackground => { attributes with no_background := true }
  | .acquireTerminal => { attributes with acquire_terminal := true }
  | .highlightedLines lines => { attributes with highlight_groups := lines }
  | .width w => { attributes with width := some w }

/-- The `while let` loop of `CodeBlockParser::parse_attributes`
(code.rs 222-242), as structural recursion on a fuel bound.  Every continuing
iteration consumes at least one character (`parse_attribute_consumes`), so for
any fuel above the input length the `0` arm is unreachable and the result is
fuel-independent (`parse_attributes_loop_fuel_irrelevant`). -/
def parse_attributes_loop (pp : List Char → Option Percent) :
    Nat → List Char → SnippetAttributes → List AttributeDiscriminants →
    ParseResult SnippetAttributes
  | 0, _, _, _ => .error (.invalidToken "")
  | fuel + 1, input, attributes, processed_attributes =>
    match parse_attribute pp input with
    | .error e => .error e
    | .ok (none, _) => .ok attributes
    | .ok (some attrib, rest) =>
      let discriminant := attrib.discriminant
      if processed_attributes.contains discriminant then
        .error (.duplicateAttribute "duplicate attribute")
      else
        parse_attributes_loop pp fuel rest
          (apply_attribute attributes attrib)
          (processed_attributes ++ [discriminant])

/-- Embeds `CodeBlockParser::parse_attributes` (code.rs 222-247): run the loop from
`SnippetAttributes::default()`, then default an empty group list to one
all-lines group. -/
def parse_attributes (pp : List Char → Option Percent) (input : List Char) :
    ParseResult SnippetAttributes := do
  let attributes ←
    parse_attributes_loop pp (input.length + 1) input SnippetAttributes.default []
  let attributes :=
    if attributes.highlight_groups.isEmpty then
      { attributes with highlight_groups := [HighlightGroup.new [Highlight.all]] }
    else attributes
  pure attributes

/-- Embeds `CodeBlockParser::parse_language` (code.rs 214-220). -/
def parse_language (input : List Char) : SnippetLanguage × List Char :=
  let token := next_identifier input
  (SnippetLanguage.fromStr (String.mk token), input.drop token.length)

/-- Embeds `CodeBlockParser::parse_block_info` (code.rs 205-212). -/
def parse_block_info (pp : List Char → Option Percent) (input : List Char) :
    ParseResult (SnippetLanguage × SnippetAttributes) := do
  let (language, input) := parse_language input
  let attributes ← parse_attributes pp input
  if attributes.width.isSome && !attributes.auto_render then
    throw (CodeBlockParseError.notRenderSnippet "width")
  else
    pure (language, attributes)

/-- Embeds `CodeBlockParser::parse` (code.rs 199-203). -/
def parse (pp : List Char → Option Percent) (info : List Char)
    (code : List Char) : ParseResult Snippet := do
  let (language, attributes) ← parse_block_info pp info
  pure { contents := code, language := language, attributes := attributes }

end CodeBlockParser

/-- Embeds `Margin` (`crate::theme`, not among the given sources).  Modelled from its
uses in the given sources: `Margin::Percent(25)` and `margin.is_empty()`. -/
inductive Theme.Margin where
  | fixed (value : Nat)
  | percent (value : Nat)
deriving DecidableEq, Repr

/-- Embeds `Alignment` (`crate::theme`, not among the given sources; named
`Theme.Alignment` here because Mathlib already declares an `Alignment`).
Modelled from its uses in the given sources: `Alignment::Left { margin }`,
`Alignment::Right { margin }`,
`Alignment::Center { minimum_margin, minimum_size }`. -/
inductive Theme.Alignment where
  | left (margin : Theme.Margin)
  | right (margin : Theme.Margin)
  | center (minimum_margin : Theme.Margin) (minimum_size : Nat)
deriving DecidableEq, Repr

/-- Embeds `HighlightContext` (code.rs 103-109). -/
structure HighlightContext where
  groups : List HighlightGroup
  current : Nat
  block_length : Nat
  alignment : Theme.Alignment
deriving DecidableEq, Repr

namespace HighlightMutator

/-- Embeds `HighlightMutator::mutate_next` (code.rs 159-167).  `groups.len() - 1` is
Rust `usize` arithmetic; contexts are built from parsed snippets, whose group
list is never empty (claim C8), so the subtraction never underflows.  Returns
the new context and the returned boolean. -/
def mutate_next (context : HighlightContext) : HighlightContext × Bool :=
  if context.current = context.groups.length - 1 then
    (context, false)
  else
    ({ context with current := context.current + 1 }, true)

/-- Embeds `HighlightMutator::mutate_previous` (code.rs 169-177). -/
def mutate_previous (context : HighlightContext) : HighlightContext × Bool :=
  if context.current = 0 then
    (context, false)
  else
    ({ context with current := context.current - 1 }, true)

/-- Embeds `HighlightMutator::reset_mutations` (code.rs 179-181). -/
def reset_mutations (context : HighlightContext) : HighlightContext :=
  { context with current := 0 }

/-- Embeds `HighlightMutator::apply_all_mutations` (code.rs 183-186). -/
def apply_all_mutations (context : HighlightContext) : HighlightContext :=
  { context with current := context.groups.length - 1 }

/-- Embeds `HighlightMutator::mutations` (code.rs 188-191). -/
def mutations (context : HighlightContext) : Nat × Nat :=
  (context.current, context.groups.length)

/-- Helper: `mutate_next` iterated `n` times, conjoining the returned booleans. -/
def mutate_next_times : Nat → HighlightContext → HighlightContext × Bool
  | 0, context => (context, true)
  | n + 1, context =>
    let step := mutate_next context
    let rest := mutate_next_times n step.1
    (rest.1, step.2 && rest.2)

end HighlightMutator


/-! Concrete fixtures used by witnesses and counterexamples. -/

/-- A concrete `ExternalFns` instance for witnesses and counterexamples: the
identity splitter and character-count width. -/
def exampleFns : ExternalFns :=
  { split_lines := fun style ls => (ls, style)
    line_width := fun l => l.length }

/-- A finished (exited successfully, no pending output) shared state. -/
def finishedEnv : ExecutionState := { output := [], status := .success }

/-- A still-running shared state with one pending output chunk. -/
def runningEnv : ExecutionState := { output := ["hi"], status := .running }

/-- A concrete stand-in for the collaborator `Percent::from_str`, used by
witnesses: digits followed by a percent sign, in `1..=100`. -/
def examplePercentOfStr (s : List Char) : Option Percent :=
  match s.reverse with
  | '%' :: front =>
    (parseU16 front.reverse).bind fun n =>
      if 1 ≤ n ∧ n ≤ 100 then some ⟨n⟩ else none
  | _ => none

/-! Helper lemmas. -/

namespace RunSnippetOperation

theorem inv_initial : Inv initialInner := by
  intro u h
  simp [initialInner] at h

theorem inv_applyStep (fns : ExternalFns) (inner : Inner) (s : Step)
    (h : Inv inner) : Inv (applyStep fns inner s) := by
  cases s with
  | start r =>
    simp only [applyStep, start_render]
    cases hs : inner.state with
    | notStarted =>
      cases r with
      | ok _ => intro u hu; exact ⟨false, rfl⟩
      | error e =>
        intro u hu
        obtain ⟨m, hm⟩ := h u (by simpa using hu)
        rw [hs] at hm
        simp at hm
    | rendering m => exact h
    | justFinishedRendering => exact h
    | rendered => exact h
  | poll env =>
    simp only [applyStep, poll_state]
    cases hh : inner.handle with
    | none => exact h
    | some u =>
      by_cases hf : env.status.is_finished
      · simp only [hf, if_true]
        intro v hv; simp at hv
      · simp only [hf, if_false]
        intro v hv; exact ⟨!env.output.isEmpty, rfl⟩

theorem inv_runSteps (fns : ExternalFns) (inner : Inner) (steps : List Step)
    (h : Inv inner) : Inv (runSteps fns inner steps) := by
  induction steps generalizing inner with
  | nil => exact h
  | cons s rest ih => exact ih _ (inv_applyStep fns inner s h)

theorem reachable_inv (fns : ExternalFns) (inner : Inner)
    (h : Reachable fns inner) : Inv inner := by
  obtain ⟨steps, hs⟩ := h
  exact hs ▸ inv_runSteps fns initialInner steps inv_initial

theorem reachable_applyStep (fns : ExternalFns) (inner : Inner) (s : Step)
    (h : Reachable fns inner) : Reachable fns (applyStep fns inner s) := by
  obtain ⟨steps, hs⟩ := h
  refine ⟨steps ++ [s], ?_⟩
  unfold runSteps at hs ⊢
  rw [List.foldl_append, hs]
  rfl

theorem reachable_runSteps (fns : ExternalFns) (inner : Inner)
    (steps : List Step) (h : Reachable fns inner) :
    Reachable fns (runSteps fns inner steps) := by
  induction steps generalizing inner with
  | nil => exact h
  | cons s rest ih => exact ih _ (reachable_applyStep fns inner s h)

/-- The value `poll_state` returns is exactly the stored state after the call. -/
theorem poll_returns_stored (fns : ExternalFns) (inner : Inner)
    (env : ExecutionState) :
    (poll_state fns inner env).2 = (poll_state fns inner env).1.state := by
  simp only [poll_state]
  cases inner.handle with
  | none => rfl
  | some u =>
    by_cases hf : env.status.is_finished <;> simp [hf]

/-- The stored state's rank never decreases under any single interaction, on
any state satisfying the invariant. -/
theorem rank_applyStep_mono (fns : ExternalFns) (inner : Inner) (s : Step)
    (h : Inv inner) :
    inner.state.rank ≤ (applyStep fns inner s).state.rank := by
  cases s with
  | start r =>
    simp only [applyStep, start_render]
    cases hs : inner.state with
    | notStarted =>
      cases r with
      | ok _ => simp [RenderAsyncState.rank]
      | error e => simp [RenderAsyncState.rank]
    | rendering m => simp [hs]
    | justFinishedRendering => simp [hs]
    | rendered => simp [hs]
  | poll env =>
    simp only [applyStep, poll_state]
    cases hh : inner.handle with
    | none => simp
    | some u =>
      obtain ⟨m, hm⟩ := h u hh
      by_cases hf : env.status.is_finished <;>
        simp [hf, hm, RenderAsyncState.rank]

theorem rank_runSteps_mono (fns : ExternalFns) (inner : Inner)
    (steps : List Step) (h : Inv inner) :
    inner.state.rank ≤ (runSteps fns inner steps).state.rank := by
  induction steps generalizing inner with
  | nil => exact Nat.le_refl _
  | cons s rest ih =>
    exact Nat.le_trans (rank_applyStep_mono fns inner s h)
      (ih _ (inv_applyStep fns inner s h))

/-- Once the handle is gone and the stored state is `JustFinishedRendering`,
no further interaction changes the inner state at all. -/
theorem stuck_justFinished (fns : ExternalFns) (inner : Inner)
    (hh : inner.handle = none) (hs : inner.state = .justFinishedRendering)
    (steps : List Step) : runSteps fns inner steps = inner := by
  induction steps with
  | nil => rfl
  | cons s rest ih =>
    have hstep : applyStep fns inner s = inner := by
      cases s with
      | start r => simp [applyStep, start_render, hs]
      | poll env => simp [applyStep, poll_state, hh]
    simp [runSteps] at ih ⊢
    rw [hstep]
    exact ih

end RunSnippetOperation

theorem length_dropWhile_le (p : Char → Bool) (l : List Char) :
    (l.dropWhile p).length ≤ l.length := by
  induction l with
  | nil => simp [List.dropWhile]
  | cons c rest ih =>
    simp only [List.dropWhile]
    by_cases h : p c
    · simp [h]
      omega
    · simp [h]

theorem length_takeWhile_le (p : Char → Bool) (l : List Char) :
    (l.takeWhile p).length ≤ l.length := by
  induction l with
  | nil => simp [List.takeWhile]
  | cons c rest ih =>
    simp only [List.takeWhile]
    by_cases h : p c
    · simp [h]
      omega
    · simp [h]

/-- Splitting at an occurrence of `sep` leaves a tail shorter by at least the
length of `sep`. -/
theorem splitOnceStr_length (sep : List Char) (s : List Char) :
    ∀ before after, splitOnceStr sep s = some (before, after) →
      after.length + sep.length ≤ s.length := by
  induction s with
  | nil =>
    intro before after h
    unfold splitOnceStr at h
    by_cases hs : sep.isEmpty
    · rw [if_pos hs] at h
      injection h with h'
      injection h' with h1 h2
      subst h2
      simp [List.isEmpty_iff] at hs
      simp [hs]
    · rw [if_neg hs] at h
      cases h
  | cons c rest ih =>
    intro before after h
    unfold splitOnceStr at h
    by_cases hp : sep.isPrefixOf (c :: rest)
    · rw [if_pos hp] at h
      injection h with h'
      injection h' with h1 h2
      subst h2
      have hle : sep.length ≤ (c :: rest).length :=
        (List.isPrefixOf_iff_prefix.mp hp).length_le
      rw [List.length_drop]
      omega
    · rw [if_neg hp] at h
      cases hsp : splitOnceStr sep rest with
      | none => rw [hsp] at h; cases h
      | some pr =>
        obtain ⟨pre, post⟩ := pr
        rw [hsp] at h
        injection h with h'
        injection h' with h1 h2
        subst h2
        have := ih pre post hsp
        simp only [List.length_cons]
        omega

theorem parse_highlight_groups_consumes (input : List Char)
    (gs : List HighlightGroup) (rest : List Char)
    (h : CodeBlockParser.parse_highlight_groups input = .ok (gs, rest)) :
    rest.length < input.length := by
  unfold CodeBlockParser.parse_highlight_groups at h
  cases hsp : splitOnceStr ['\x7d'] input with
  | none => rw [hsp] at h; cases h
  | some pr =>
    obtain ⟨head, tail⟩ := pr
    rw [hsp] at h
    have hlen := splitOnceStr_length _ _ _ _ hsp
    simp only [List.length_singleton] at hlen
    by_cases he : (trimChars head).isEmpty
    · simp only [he, if_pos] at h
      injection h with h'
      injection h' with h1 h2
      subst h2
      omega
    · simp only [he, if_neg, Bool.false_eq_true, not_false_iff] at h
      cases hg : CodeBlockParser.parse_groups ((trimChars head).splitOn '|') with
      | error e => rw [hg] at h; cases h
      | ok groups =>
        rw [hg] at h
        simp only [Except.bind, pure, Except.pure] at h
        injection h with h'
        injection h' with h1 h2
        subst h2
        omega


set_option maxHeartbeats 800000 in
/-- Every iteration of the attribute loop that yields an attribute consumes at
least one input character; this is why the Rust `while let` loop terminates
and why the fuel bound used in `parse_attributes_loop` never runs out. -/
theorem parse_attribute_consumes (pp : List Char → Option Percent)
    (input : List Char) (attrib : Attribute) (rest : List Char)
    (h : CodeBlockParser.parse_attribute pp input = .ok (some attrib, rest)) :
    rest.length < input.length := by
  have hskip : (CodeBlockParser.skip_whitespace input).length ≤ input.length :=
    length_dropWhile_le _ _
  unfold CodeBlockParser.parse_attribute at h
  split at h
  · simp at h
  · rename_i first afterFirst heq
    rw [heq] at hskip
    simp only [List.length_cons] at hskip
    simp only [] at h
    split_ifs at h with hplus h1 h2 h3 h4 h5 h6 h7 hbrace
    · injection h with h'
      injection h' with ha hb
      rw [← hb, List.length_drop]
      simp only [List.length_cons]
      omega
    · injection h with h'
      injection h' with ha hb
      rw [← hb, List.length_drop]
      simp only [List.length_cons]
      omega
    · injection h with h'
      injection h' with ha hb
      rw [← hb, List.length_drop]
      simp only [List.length_cons]
      omega
    · injection h with h'
      injection h' with ha hb
      rw [← hb, List.length_drop]
      simp only [List.length_cons]
      omega
    · injection h with h'
      injection h' with ha hb
      rw [← hb, List.length_drop]
      simp only [List.length_cons]
      omega
    · injection h with h'
      injection h' with ha hb
      rw [← hb, List.length_drop]
      simp only [List.length_cons]
      omega
    · -- width branch
      cases hsp : splitOnceStr ("+width:".toList) (first :: afterFirst) with
      | none => rw [hsp] at h; cases h
      | some pr =>
        obtain ⟨pre, value⟩ := pr
        rw [hsp] at h
        simp only [] at h
        have hlen := splitOnceStr_length _ _ _ _ hsp
        cases hpw : CodeBlockParser.parse_width pp value with
        | error e => rw [hpw] at h; cases h
        | ok wr =>
          obtain ⟨w, r⟩ := wr
          rw [hpw] at h
          simp only [] at h
          injection h with h'
          injection h' with ha hb
          unfold CodeBlockParser.parse_width at hpw
          simp only [] at hpw
          have hr : r.length ≤ value.length := by
            cases hpp : pp (value.take (value.takeWhile (fun c => c ≠ ' ')).length) with
            | none => rw [hpp] at hpw; cases hpw
            | some w' =>
              rw [hpp] at hpw
              injection hpw with hpw'
              injection hpw' with hw1 hw2
              rw [← hw2, List.length_drop]
              omega
          have h7len : ("+width:".toList).length = 7 := by decide
          rw [h7len] at hlen
          simp only [List.length_cons] at hlen
          rw [← hb]
          omega
    · -- brace branch
      cases hg : CodeBlockParser.parse_highlight_groups afterFirst with
      | error e => rw [hg] at h; cases h
      | ok gr =>
        obtain ⟨gs, r⟩ := gr
        rw [hg] at h
        simp only [] at h
        injection h with h'
        injection h' with ha hb
        have := parse_highlight_groups_consumes afterFirst gs r hg
        rw [← hb]
        omega

/-- The attribute loop's result does not depend on the fuel, for any fuel
above the input length: the embedding with fuel `input.length + 1` computes
exactly the Rust loop. -/
theorem parse_attributes_loop_fuel_irrelevant (pp : List Char → Option Percent) :
    ∀ fuel fuel' input attrs processed, input.length < fuel →
      input.length < fuel' →
      CodeBlockParser.parse_attributes_loop pp fuel input attrs processed =
      CodeBlockParser.parse_attributes_loop pp fuel' input attrs processed := by
  intro fuel
  induction fuel with
  | zero => intro fuel' input _ _ h _; omega
  | succ f ih =>
    intro fuel' input attrs processed h h'
    cases fuel' with
    | zero => omega
    | succ f' =>
      unfold CodeBlockParser.parse_attributes_loop
      cases hpa : CodeBlockParser.parse_attribute pp input with
      | error e => rfl
      | ok p =>
        obtain ⟨oa, rest⟩ := p
        cases oa with
        | none => rfl
        | some attrib =>
          simp only []
          have hc := parse_attribute_consumes pp input attrib rest hpa
          by_cases hct : processed.contains attrib.discriminant = true
          · rw [if_pos hct, if_pos hct]
          · rw [if_neg hct, if_neg hct]
            exact ih f' rest _ _ (by omega) (by omega)

/-! Claim theorems. -/

/-- Claim C10: `RunAcquireTerminalSnippet::poll_state` returns `Rendered`
unconditionally — for every stored state, including `NotStarted` before any
`start_render` call — so the polled lifecycle state never reflects the
`NotStarted` phase. -/
theorem acquire_poll_state_always_rendered :
    ∀ st : AcquireTerminalSnippetState,
      RunAcquireTerminalSnippet.poll_state st = .rendered := by
  intro st
  rfl

/-- Claim C4: in `RunAcquireTerminalSnippet`, restoration is consulted even
when `execute_sync` failed: whatever the invocation's result, a restoration
failure makes `invoke` return the restoration error (first conjunct), and
`start_render` then records that restoration failure as the operation's
`Failure` state (second conjunct).  When restoration succeeds, the
invocation's own failure is reported (third conjunct). -/
theorem acquire_restore_failure_supersedes :
    (∀ (execRes : Except String Unit) (hc : Option (Except String Unit))
        (r : String),
        RunAcquireTerminalSnippet.invoke (.ok ()) execRes (.error r) hc =
          .error ("failed to reinit terminal: " ++ r)) ∧
    (∀ (execRes : Except String Unit) (hc : Option (Except String Unit))
        (r : String),
        RunAcquireTerminalSnippet.start_render .notStarted (.ok ()) execRes
            (.error r) hc =
          (.failure (rustLines ("failed to reinit terminal: " ++ r)), true)) ∧
    (∀ m : String,
        RunAcquireTerminalSnippet.invoke (.ok ()) (.error m) (.ok ()) none =
          .error ("failed to run snippet: " ++ m)) := by
  refine ⟨fun execRes hc r => ?_, fun execRes hc r => ?_, fun m => ?_⟩
  · rfl
  · simp only [RunAcquireTerminalSnippet.start_render,
      RunAcquireTerminalSnippet.invoke]
  · rfl

/-- Claim C5: `try_next_command` checks the external event source first and
non-blockingly: a pending message is translated to `Command::GoToSlide` and
returned at once, with a result that does not depend on the local input source
at all (first conjunct); otherwise — no receiver, or nothing pending — the
local input source is polled with the bounded 250 ms timeout and its result
(including `Ok(None)` on timeout) is returned as is (second conjunct). -/
theorem try_next_command_priority :
    (∀ (idx : Nat) (localPoll : Nat → Except String (Option Command)),
        CommandSource.try_next_command (some (.ok (some (.goToSlide idx))))
            localPoll =
          .value (.ok (some (.goToSlide idx)))) ∧
    (∀ (ext : Option (Except String (Option SpeakerNotesCommand)))
        (localPoll : Nat → Except String (Option Command)),
        ext = none ∨ ext = some (.ok none) →
        CommandSource.try_next_command ext localPoll =
          .value (localPoll 250)) := by
  constructor
  · intro idx localPoll
    rfl
  · intro ext localPoll hext
    rcases hext with h | h <;> subst h <;>
      · unfold CommandSource.try_next_command
        cases hl : localPoll 250 with
        | error e => rfl
        | ok oc => cases oc <;> rfl

/-- Claim C5 witness: with an external go-to-slide event pending the external
command is returned regardless of pending local input, and with no external
event a timed-out local poll yields `Ok(None)`. -/
theorem try_next_command_priority_witness :
    CommandSource.try_next_command (some (.ok (some (.goToSlide 3))))
        (fun _ => .ok (some .next)) =
      .value (.ok (some (.goToSlide 3))) ∧
    CommandSource.try_next_command none (fun _ => .ok none) =
      .value (.ok none) :=
  ⟨try_next_command_priority.1 3 (fun _ => .ok (some .next)),
   try_next_command_priority.2 none (fun _ => .ok none) (Or.inl rfl)⟩

/-- Claim C6: the only errors `try_next_command` returns are those of the
local input source's poll (first conjunct); a failure of the external event
source is never returned as the call's `io::Error` — the code `unwrap()`s it,
panicking instead (second conjunct). -/
theorem try_next_command_errors_local_only :
    (∀ (ext : Option (Except String (Option SpeakerNotesCommand)))
        (localPoll : Nat → Except String (Option Command)) (e : String),
        CommandSource.try_next_command ext localPoll = .value (.error e) →
        localPoll 250 = .error e) ∧
    (∀ (e : String) (localPoll : Nat → Except String (Option Command)),
        CommandSource.try_next_command (some (.error e)) localPoll =
          .panics e) := by
  constructor
  · intro ext localPoll e h
    unfold CommandSource.try_next_command at h
    cases ext with
    | none =>
      cases hl : localPoll 250 with
      | error e' =>
        rw [hl] at h
        injection h with h'
      | ok oc =>
        rw [hl] at h
        cases oc <;> cases h
    | some extRes =>
      cases extRes with
      | error e' => cases h
      | ok msg =>
        cases msg with
        | none =>
          cases hl : localPoll 250 with
          | error e' =>
            rw [hl] at h
            injection h with h'
          | ok oc =>
            rw [hl] at h
            cases oc <;> cases h
        | some msg =>
          cases msg with
          | goToSlide idx => cases h
  · intro e localPoll
    rfl

/-- Claim C6 witness: a failing local poll's error is the returned error, and
an external-source failure panics rather than returning an error. -/
theorem try_next_command_errors_local_only_witness :
    (fun _ => (.error "boom" : Except String (Option Command))) 250 =
      .error "boom" ∧
    CommandSource.try_next_command (some (.error "lost"))
        (fun _ => .ok none) = .panics "lost" :=
  ⟨try_next_command_errors_local_only.1 none
      (fun _ => .error "boom") "boom" rfl,
   try_next_command_errors_local_only.2 "lost" (fun _ => .ok none)⟩

/-- Claim C2: for each of the three async render operations, the first
`start_render` call — made in the freshly constructed state — returns `true`,
and every later call returns `false` and leaves the operation's state
unchanged.  For `RunSnippetOperation` this is expressed by: the initial call
returns `true` whatever the executor does; any call in a non-`NotStarted`
state is an unchanged-state `false`; a `true` call leaves `NotStarted`; and
polling never re-enters `NotStarted` — so every state following a first call
yields `false` forever.  `RunAcquireTerminalSnippet` and
`SnippetExecutionDisabledOperation` follow, their `poll_state` not touching
the stored state at all. -/
theorem start_render_idempotent :
    (∀ r, (RunSnippetOperation.start_render RunSnippetOperation.initialInner
        r).2 = true) ∧
    (∀ (inner : RunSnippetOperation.Inner) r,
        inner.state ≠ .notStarted →
        RunSnippetOperation.start_render inner r = (inner, false)) ∧
    (∀ (inner : RunSnippetOperation.Inner) r,
        (RunSnippetOperation.start_render inner r).2 = true →
        (RunSnippetOperation.start_render inner r).1.state ≠ .notStarted) ∧
    (∀ fns (inner : RunSnippetOperation.Inner) env,
        inner.state ≠ .notStarted →
        (RunSnippetOperation.poll_state fns inner env).1.state ≠
          .notStarted) ∧
    (∀ (deinit execRes reinit : Except String Unit)
        (hc : Option (Except String Unit)),
        (RunAcquireTerminalSnippet.start_render .notStarted deinit execRes
          reinit hc).2 = true) ∧
    (∀ (st : AcquireTerminalSnippetState)
        (deinit execRes reinit : Except String Unit)
        (hc : Option (Except String Unit)),
        st ≠ .notStarted →
        RunAcquireTerminalSnippet.start_render st deinit execRes reinit hc =
          (st, false)) ∧
    (∀ (deinit execRes reinit : Except String Unit)
        (hc : Option (Except String Unit)),
        (RunAcquireTerminalSnippet.start_render .notStarted deinit execRes
          reinit hc).1 ≠ .notStarted) ∧
    (SnippetExecutionDisabledOperation.start_render
        SnippetExecutionDisabledOperation.initialStarted = (true, true)) ∧
    (SnippetExecutionDisabledOperation.start_render true = (true, false)) := by
  refine ⟨?_, ?_, ?_, ?_, ?_, ?_, ?_, rfl, rfl⟩
  · intro r
    cases r <;> rfl
  · intro inner r hs
    unfold RunSnippetOperation.start_render
    cases hst : inner.state with
    | notStarted => exact absurd hst hs
    | rendering m => rfl
    | justFinishedRendering => rfl
    | rendered => rfl
  · intro inner r h
    unfold RunSnippetOperation.start_render
    cases hst : inner.state with
    | notStarted => cases r <;> simp
    | rendering m => simp [hst]
    | justFinishedRendering => simp [hst]
    | rendered => simp [hst]
  · intro fns inner env hs
    unfold RunSnippetOperation.poll_state
    cases hh : inner.handle with
    | none => simpa using hs
    | some u =>
      by_cases hf : env.status.is_finished <;> simp [hf]
  · intro deinit execRes reinit hc
    unfold RunAcquireTerminalSnippet.start_render
    cases RunAcquireTerminalSnippet.invoke deinit execRes reinit hc <;> rfl
  · intro st deinit execRes reinit hc hs
    cases st with
    | notStarted => exact absurd rfl hs
    | success => rfl
    | failure lines => rfl
  · intro deinit execRes reinit hc
    unfold RunAcquireTerminalSnippet.start_render
    cases RunAcquireTerminalSnippet.invoke deinit execRes reinit hc <;> simp

/-- Claim C2 witness: a concrete first call returning true for each
operation, concrete later calls returning false and leaving the state as it
was, and a concrete poll that does not re-enter `NotStarted`. -/
theorem start_render_idempotent_witness :
    (RunSnippetOperation.start_render RunSnippetOperation.initialInner
      (.ok ())).2 = true ∧
    RunSnippetOperation.start_render
        (RunSnippetOperation.start_render RunSnippetOperation.initialInner
          (.ok ())).1 (.ok ()) =
      ((RunSnippetOperation.start_render RunSnippetOperation.initialInner
        (.ok ())).1, false) ∧
    (RunSnippetOperation.poll_state exampleFns
        (RunSnippetOperation.start_render RunSnippetOperation.initialInner
          (.ok ())).1 runningEnv).1.state ≠ .notStarted ∧
    RunAcquireTerminalSnippet.start_render .success (.ok ()) (.ok ()) (.ok ())
        none = (.success, false) ∧
    SnippetExecutionDisabledOperation.start_render
        SnippetExecutionDisabledOperation.initialStarted = (true, true) := by
  refine ⟨start_render_idempotent.1 (.ok ()), ?_, ?_, ?_,
    start_render_idempotent.2.2.2.2.2.2.2.1⟩
  · exact start_render_idempotent.2.1 _ (.ok ()) (by decide)
  · exact start_render_idempotent.2.2.2.1 exampleFns _ runningEnv (by decide)
  · exact start_render_idempotent.2.2.2.2.2.1 .success (.ok ()) (.ok ())
      (.ok ()) none (by decide)

/-- Claim C3: when `execute_async` fails on the first `start_render` call of a
`RunSnippetOperation` (state `NotStarted`, no handle yet), the error's text
becomes the operation's output lines, the state is set directly to `Rendered`
— never passing through `Rendering` — no error is raised (the call still
returns normally), and the returned value is `true`; every following poll
leaves the state `Rendered` and the operation unchanged. -/
theorem spawn_failure_renders_error_text :
    ∀ (inner : RunSnippetOperation.Inner) (e : String),
      inner.state = .notStarted → inner.handle = none →
      RunSnippetOperation.start_render inner (.error e) =
        ({ inner with output_lines := [e], state := .rendered }, true) ∧
      (∀ fns env,
        RunSnippetOperation.poll_state fns
            { inner with output_lines := [e], state := .rendered } env =
          ({ inner with output_lines := [e], state := .rendered },
            .rendered)) := by
  intro inner e hs hh
  constructor
  · unfold RunSnippetOperation.start_render
    rw [hs]
  · intro fns env
    unfold RunSnippetOperation.poll_state
    rw [hh]

/-- Claim C3 witness: a concrete spawn failure on the freshly built operation
stores the error text, jumps straight to `Rendered`, returns `true`, and a
following poll changes nothing. -/
theorem spawn_failure_renders_error_text_witness :
    RunSnippetOperation.start_render RunSnippetOperation.initialInner
        (.error "no interpreter") =
      ({ RunSnippetOperation.initialInner with
          output_lines := ["no interpreter"], state := .rendered }, true) ∧
    RunSnippetOperation.poll_state exampleFns
        { RunSnippetOperation.initialInner with
            output_lines := ["no interpreter"], state := .rendered }
        finishedEnv =
      ({ RunSnippetOperation.initialInner with
          output_lines := ["no interpreter"], state := .rendered },
        .rendered) := by
  have h := spawn_failure_renders_error_text RunSnippetOperation.initialInner
    "no interpreter" rfl rfl
  exact ⟨h.1, h.2 exampleFns finishedEnv⟩

/-- Helper for claim C9: from index `c` with `c + k + 1 = groups.length`,
`k` forward cycles all succeed and land on index `c + k`. -/
theorem mutate_next_times_run (k : Nat) :
    ∀ (groups : List HighlightGroup) (c bl : Nat) (al : Theme.Alignment),
      c + k + 1 = groups.length →
      HighlightMutator.mutate_next_times k ⟨groups, c, bl, al⟩ =
        (⟨groups, c + k, bl, al⟩, true) := by
  induction k with
  | zero =>
    intro groups c bl al h
    rfl
  | succ k ih =>
    intro groups c bl al h
    unfold HighlightMutator.mutate_next_times
    have hne : c ≠ groups.length - 1 := by omega
    unfold HighlightMutator.mutate_next
    simp only [hne, if_neg, not_false_iff]
    have := ih groups (c + 1) bl al (by omega)
    rw [this]
    have hc : c + 1 + k = c + (k + 1) := by omega
    rw [hc]
    rfl

/-- Claim C9: over a context with `N ≥ 1` groups at index 0, `mutate_next`
applied `N - 1` times returns `true` each time and lands on index `N - 1`; a
further `mutate_next` returns `false` and changes nothing; `mutate_previous`
at index 0 returns `false` and changes nothing; `apply_all_mutations` sets the
index to `N - 1`; `reset_mutations` sets it to 0. -/
theorem highlight_mutator_cycling :
    ∀ (groups : List HighlightGroup) (bl : Nat) (al : Theme.Alignment),
      groups ≠ [] →
      (HighlightMutator.mutate_next_times (groups.length - 1)
          ⟨groups, 0, bl, al⟩ =
        (⟨groups, groups.length - 1, bl, al⟩, true)) ∧
      (HighlightMutator.mutate_next ⟨groups, groups.length - 1, bl, al⟩ =
        (⟨groups, groups.length - 1, bl, al⟩, false)) ∧
      (HighlightMutator.mutate_previous ⟨groups, 0, bl, al⟩ =
        (⟨groups, 0, bl, al⟩, false)) ∧
      (HighlightMutator.apply_all_mutations ⟨groups, 0, bl, al⟩ =
        ⟨groups, groups.length - 1, bl, al⟩) ∧
      (HighlightMutator.reset_mutations ⟨groups, 0, bl, al⟩ =
        ⟨groups, 0, bl, al⟩) := by
  intro groups bl al hne
  have hlen : 0 < groups.length := List.length_pos.mpr hne
  refine ⟨?_, ?_, ?_, rfl, rfl⟩
  · have := mutate_next_times_run (groups.length - 1) groups 0 bl al (by omega)
    simpa using this
  · unfold HighlightMutator.mutate_next
    simp
  · rfl

/-- Claim C9 witness: three groups, starting at index 0: two successful
forward cycles land on index 2, further cycling and backward cycling at 0 are
refused no-ops, jump-to-last reaches 2 and reset returns to 0. -/
theorem highlight_mutator_cycling_witness :
    (HighlightMutator.mutate_next_times 2
        ⟨[⟨[.all]⟩, ⟨[.single 1]⟩, ⟨[.single 2]⟩], 0, 4,
          .left (.percent 25)⟩ =
      (⟨[⟨[.all]⟩, ⟨[.single 1]⟩, ⟨[.single 2]⟩], 2, 4,
        .left (.percent 25)⟩, true)) ∧
    (HighlightMutator.mutate_previous
        ⟨[⟨[.all]⟩, ⟨[.single 1]⟩, ⟨[.single 2]⟩], 0, 4,
          .left (.percent 25)⟩ =
      (⟨[⟨[.all]⟩, ⟨[.single 1]⟩, ⟨[.single 2]⟩], 0, 4,
        .left (.percent 25)⟩, false)) := by
  have h := highlight_mutator_cycling
    [⟨[.all]⟩, ⟨[.single 1]⟩, ⟨[.single 2]⟩] 4 (.left (.percent 25))
    (by decide)
  exact ⟨h.1, h.2.2.1⟩

/-- Claim C7: every `Snippet` the parser produces satisfies
`width.is_some() ⇒ auto_render` (first conjunct), because block info whose
attributes set a width without `+render` makes `parse_block_info` fail with
`NotRenderSnippet("width")` instead of producing a snippet (second conjunct).
Both hold for every `Percent` collaborator parser `pp`. -/
theorem width_requires_auto_render :
    (∀ (pp : List Char → Option Percent) (info code : List Char)
        (snip : Snippet),
        CodeBlockParser.parse pp info code = .ok snip →
        snip.attributes.width.isSome = true →
        snip.attributes.auto_render = true) ∧
    (∀ (pp : List Char → Option Percent) (input : List Char)
        (attrs : SnippetAttributes),
        CodeBlockParser.parse_attributes pp
            (CodeBlockParser.parse_language input).2 = .ok attrs →
        attrs.width.isSome = true → attrs.auto_render = false →
        CodeBlockParser.parse_block_info pp input =
          .error (.notRenderSnippet "width")) := by
  have hblock : ∀ (pp : List Char → Option Percent) (input : List Char)
      (lang : SnippetLanguage) (attrs : SnippetAttributes),
      CodeBlockParser.parse_block_info pp input = .ok (lang, attrs) →
      attrs.width.isSome = true → attrs.auto_render = true := by
    intro pp input lang attrs h hw
    unfold CodeBlockParser.parse_block_info at h
    rcases hpl : CodeBlockParser.parse_language input with ⟨language, rest⟩
    rw [hpl] at h
    simp only [] at h
    cases ha : CodeBlockParser.parse_attributes pp rest with
    | error e =>
      rw [ha] at h
      cases h
    | ok attrs' =>
      rw [ha] at h
      replace h :
          (if (attrs'.width.isSome && !attrs'.auto_render) = true then
            (Except.error (CodeBlockParseError.notRenderSnippet "width") :
              ParseResult (SnippetLanguage × SnippetAttributes))
          else Except.ok (language, attrs')) = Except.ok (lang, attrs) := h
      by_cases hc : (attrs'.width.isSome && !attrs'.auto_render) = true
      · rw [if_pos hc] at h
        cases h
      · rw [if_neg hc] at h
        injection h with h'
        injection h' with h1 h2
        subst h2
        simp only [Bool.and_eq_true, Bool.not_eq_true', not_and,
          Bool.not_eq_false] at hc
        exact hc hw
  constructor
  · intro pp info code snip h hw
    unfold CodeBlockParser.parse at h
    cases hb : CodeBlockParser.parse_block_info pp info with
    | error e =>
      rw [hb] at h
      cases h
    | ok p =>
      obtain ⟨lang, attrs⟩ := p
      rw [hb] at h
      replace h : (Except.ok (Snippet.mk code lang attrs) :
          ParseResult Snippet) = Except.ok snip := h
      injection h with h'
      have hs : snip.attributes = attrs := by rw [← h']
      rw [hs] at hw ⊢
      exact hblock pp info lang attrs hb hw
  · intro pp input attrs ha hw hr
    unfold CodeBlockParser.parse_block_info
    rcases hpl : CodeBlockParser.parse_language input with ⟨language, rest⟩
    rw [hpl] at ha
    simp only [] at ha
    simp only []
    rw [ha]
    have hc : (attrs.width.isSome && !attrs.auto_render) = true := by
      simp [hw, hr]
    show (if (attrs.width.isSome && !attrs.auto_render) = true then
        (Except.error (CodeBlockParseError.notRenderSnippet "width") :
          ParseResult (SnippetLanguage × SnippetAttributes))
      else Except.ok (language, attrs)) =
      Except.error (CodeBlockParseError.notRenderSnippet "width")
    rw [if_pos hc]

/-- Claim C7 witness: a concrete block info with `+width:50% +render` parses
into a snippet whose `auto_render` is set, and the same width attribute
without `+render` makes parsing fail with `NotRenderSnippet("width")`. -/
theorem width_requires_auto_render_witness :
    (Snippet.mk "x".toList .mermaid
        (SnippetAttributes.mk false false true false
          [HighlightGroup.new [Highlight.all]] (some ⟨50⟩) false
          false)).attributes.auto_render = true ∧
    CodeBlockParser.parse_block_info examplePercentOfStr
        "mermaid +width:50%".toList =
      .error (.notRenderSnippet "width") :=
  ⟨width_requires_auto_render.1 examplePercentOfStr
      "mermaid +width:50% +render".toList "x".toList
      (Snippet.mk "x".toList .mermaid
        (SnippetAttributes.mk false false true false
          [HighlightGroup.new [Highlight.all]] (some ⟨50⟩) false false))
      (by rfl) (by rfl),
   width_requires_auto_render.2 examplePercentOfStr
      "mermaid +width:50%".toList
      (SnippetAttributes.mk false false false false
        [HighlightGroup.new [Highlight.all]] (some ⟨50⟩) false false)
      (by rfl) (by rfl) (by rfl)⟩

/-- Claim C8: every parsed snippet has a non-empty `highlight_groups` (first
conjunct); whenever the attribute loop itself ends with an empty group list —
no `{..}` attribute, or an empty one like `{}` — `parse_attributes` defaults
it to exactly the one group `[Highlight::All]` (second conjunct), and that
group contains every line number (third conjunct). -/
theorem highlight_groups_never_empty :
    (∀ (pp : List Char → Option Percent) (info code : List Char)
        (snip : Snippet),
        CodeBlockParser.parse pp info code = .ok snip →
        snip.attributes.highlight_groups ≠ []) ∧
    (∀ (pp : List Char → Option Percent) (input : List Char)
        (attrs : SnippetAttributes),
        CodeBlockParser.parse_attributes_loop pp (input.length + 1) input
            SnippetAttributes.default [] = .ok attrs →
        attrs.highlight_groups = [] →
        CodeBlockParser.parse_attributes pp input =
          .ok { attrs with
            highlight_groups := [HighlightGroup.new [Highlight.all]] }) ∧
    (∀ n : Nat, (HighlightGroup.new [Highlight.all]).contains n = true) := by
  have hattrs : ∀ (pp : List Char → Option Percent) (input : List Char)
      (attrs : SnippetAttributes),
      CodeBlockParser.parse_attributes pp input = .ok attrs →
      attrs.highlight_groups ≠ [] := by
    intro pp input attrs h
    unfold CodeBlockParser.parse_attributes at h
    cases hl : CodeBlockParser.parse_attributes_loop pp (input.length + 1)
        input SnippetAttributes.default [] with
    | error e =>
      rw [hl] at h
      cases h
    | ok attrs0 =>
      rw [hl] at h
      replace h : (Except.ok
          (if attrs0.highlight_groups.isEmpty = true then
            { attrs0 with
              highlight_groups := [HighlightGroup.new [Highlight.all]] }
          else attrs0) : ParseResult SnippetAttributes) = Except.ok attrs := h
      by_cases he : attrs0.highlight_groups.isEmpty = true
      · rw [if_pos he] at h
        injection h with h'
        rw [← h']
        simp
      · rw [if_neg he] at h
        injection h with h'
        rw [← h']
        simpa [List.isEmpty_iff] using he
  refine ⟨?_, ?_, ?_⟩
  · intro pp info code snip h
    unfold CodeBlockParser.parse at h
    cases hb : CodeBlockParser.parse_block_info pp info with
    | error e =>
      rw [hb] at h
      cases h
    | ok p =>
      obtain ⟨lang, attrs⟩ := p
      rw [hb] at h
      replace h : (Except.ok (Snippet.mk code lang attrs) :
          ParseResult Snippet) = Except.ok snip := h
      injection h with h'
      have hs : snip.attributes = attrs := by rw [← h']
      rw [hs]
      unfold CodeBlockParser.parse_block_info at hb
      rcases hpl : CodeBlockParser.parse_language info with ⟨language, rest⟩
      rw [hpl] at hb
      simp only [] at hb
      cases ha : CodeBlockParser.parse_attributes pp rest with
      | error e =>
        rw [ha] at hb
        cases hb
      | ok attrs' =>
        rw [ha] at hb
        replace hb :
            (if (attrs'.width.isSome && !attrs'.auto_render) = true then
              (Except.error (CodeBlockParseError.notRenderSnippet "width") :
                ParseResult (SnippetLanguage × SnippetAttributes))
            else Except.ok (language, attrs')) = Except.ok (lang, attrs) := hb
        by_cases hc : (attrs'.width.isSome && !attrs'.auto_render) = true
        · rw [if_pos hc] at hb
          cases hb
        · rw [if_neg hc] at hb
          injection hb with hb'
          injection hb' with hb1 hb2
          subst hb2
          exact hattrs pp rest attrs' ha
  · intro pp input attrs hl he
    unfold CodeBlockParser.parse_attributes
    rw [hl]
    show (Except.ok
        (if attrs.highlight_groups.isEmpty = true then
          { attrs with
            highlight_groups := [HighlightGroup.new [Highlight.all]] }
        else attrs) : ParseResult SnippetAttributes) = _
    rw [if_pos (by simp [he])]
  · intro n
    rfl

/-- Claim C8 witness: parsing `bash \x7b\x7d` (an explicitly empty highlight
list) yields exactly the one all-lines group, which contains line 5. -/
theorem highlight_groups_never_empty_witness :
    (Snippet.mk [] .bash
        (SnippetAttributes.mk false false false false
          [HighlightGroup.new [Highlight.all]] none false
          false)).attributes.highlight_groups ≠ [] ∧
    CodeBlockParser.parse_attributes examplePercentOfStr
        " \x7b\x7d".toList =
      .ok { SnippetAttributes.default with
        highlight_groups := [HighlightGroup.new [Highlight.all]] } ∧
    (HighlightGroup.new [Highlight.all]).contains 5 = true :=
  ⟨highlight_groups_never_empty.1 examplePercentOfStr
      "bash \x7b\x7d".toList []
      (Snippet.mk [] .bash
        (SnippetAttributes.mk false false false false
          [HighlightGroup.new [Highlight.all]] none false false))
      (by rfl),
   highlight_groups_never_empty.2.1 examplePercentOfStr " \x7b\x7d".toList
      SnippetAttributes.default (by rfl) (by rfl),
   highlight_groups_never_empty.2.2 5⟩

/-- Helper for claim C1: a poll that observes the exited process sets the
stored state to `JustFinishedRendering` and drops the handle. -/
theorem poll_state_finished (fns : ExternalFns)
    (inner : RunSnippetOperation.Inner) (env : ExecutionState)
    (hh : inner.handle = some ()) (hf : env.status.is_finished = true) :
    (RunSnippetOperation.poll_state fns inner env).1.handle = none ∧
    (RunSnippetOperation.poll_state fns inner env).1.state =
      .justFinishedRendering := by
  unfold RunSnippetOperation.poll_state
  rw [hh]
  simp [hf]

/-- Helper for claim C1: polling without a handle changes nothing and returns
the stored state. -/
theorem poll_state_no_handle (fns : ExternalFns)
    (inner : RunSnippetOperation.Inner) (env : ExecutionState)
    (hh : inner.handle = none) :
    RunSnippetOperation.poll_state fns inner env = (inner, inner.state) := by
  unfold RunSnippetOperation.poll_state
  rw [hh]

/-- Claim C1 (amended): `poll_state` returns exactly the stored state after
the call (first conjunct); along any sequence of calls on a reachable
operation the returned states never regress in the ordering
`NotStarted < Rendering < JustFinishedRendering < Rendered` (second
conjunct); the poll that observes the exited process returns
`JustFinishedRendering` and releases the execution handle (third conjunct);
and — amending the claim's final part, which the code does not satisfy —
every subsequent `poll_state` call returns `JustFinishedRendering`, not
`Rendered`: no code path ever moves the state from `JustFinishedRendering`
to `Rendered` (fourth conjunct). -/
theorem run_snippet_poll_lifecycle (fns : ExternalFns) :
    (∀ (inner : RunSnippetOperation.Inner) env,
        (RunSnippetOperation.poll_state fns inner env).2 =
          (RunSnippetOperation.poll_state fns inner env).1.state) ∧
    (∀ (inner : RunSnippetOperation.Inner) env₁
        (steps : List RunSnippetOperation.Step) env₂,
        RunSnippetOperation.Reachable fns inner →
        ((RunSnippetOperation.poll_state fns inner env₁).2).rank ≤
          ((RunSnippetOperation.poll_state fns
            (RunSnippetOperation.runSteps fns
              (RunSnippetOperation.poll_state fns inner env₁).1 steps)
            env₂).2).rank) ∧
    (∀ (inner : RunSnippetOperation.Inner) env,
        inner.handle = some () → env.status.is_finished = true →
        (RunSnippetOperation.poll_state fns inner env).2 =
          .justFinishedRendering ∧
        (RunSnippetOperation.poll_state fns inner env).1.handle = none) ∧
    (∀ (inner : RunSnippetOperation.Inner) env
        (steps : List RunSnippetOperation.Step) env',
        inner.handle = some () → env.status.is_finished = true →
        (RunSnippetOperation.poll_state fns
            (RunSnippetOperation.runSteps fns
              (RunSnippetOperation.poll_state fns inner env).1 steps)
            env').2 = .justFinishedRendering) := by
  refine ⟨RunSnippetOperation.poll_returns_stored fns, ?_, ?_, ?_⟩
  · intro inner env₁ steps env₂ hreach
    have hinv : RunSnippetOperation.Inv inner :=
      RunSnippetOperation.reachable_inv fns inner hreach
    have hinv1 : RunSnippetOperation.Inv
        (RunSnippetOperation.poll_state fns inner env₁).1 :=
      RunSnippetOperation.inv_applyStep fns inner (.poll env₁) hinv
    have hinv2 : RunSnippetOperation.Inv
        (RunSnippetOperation.runSteps fns
          (RunSnippetOperation.poll_state fns inner env₁).1 steps) :=
      RunSnippetOperation.inv_runSteps fns _ steps hinv1
    rw [RunSnippetOperation.poll_returns_stored fns inner env₁,
      RunSnippetOperation.poll_returns_stored fns _ env₂]
    calc ((RunSnippetOperation.poll_state fns inner env₁).1.state).rank
        ≤ ((RunSnippetOperation.runSteps fns
            (RunSnippetOperation.poll_state fns inner env₁).1
            steps).state).rank :=
          RunSnippetOperation.rank_runSteps_mono fns _ steps hinv1
      _ ≤ _ :=
          RunSnippetOperation.rank_applyStep_mono fns _ (.poll env₂) hinv2
  · intro inner env hh hf
    obtain ⟨h1, h2⟩ := poll_state_finished fns inner env hh hf
    refine ⟨?_, h1⟩
    rw [RunSnippetOperation.poll_returns_stored fns inner env]
    exact h2
  · intro inner env steps env' hh hf
    obtain ⟨h1, h2⟩ := poll_state_finished fns inner env hh hf
    rw [RunSnippetOperation.stuck_justFinished fns _ h1 h2 steps]
    rw [poll_state_no_handle fns _ env' h1]
    exact h2

/-- Claim C1 counterexample: a concrete trace refuting the claim as stated.
The operation is started (executor succeeds), the first poll observes a
successful exit and returns `JustFinishedRendering`; the claim says every
subsequent poll returns `Rendered`, but the next poll again returns
`JustFinishedRendering` — the state never reaches `Rendered` on this path. -/
theorem run_snippet_poll_rendered_counterexample :
    (RunSnippetOperation.poll_state exampleFns
        (RunSnippetOperation.poll_state exampleFns
          (RunSnippetOperation.start_render RunSnippetOperation.initialInner
            (.ok ())).1 finishedEnv).1 finishedEnv).2 =
      RenderAsyncState.justFinishedRendering ∧
    (RunSnippetOperation.poll_state exampleFns
        (RunSnippetOperation.poll_state exampleFns
          (RunSnippetOperation.start_render RunSnippetOperation.initialInner
            (.ok ())).1 finishedEnv).1 finishedEnv).2 ≠
      RenderAsyncState.rendered := by
  constructor
  · decide
  · decide

/-- Claim C1 witness: on a concretely started operation, the returned states
do not regress across a running poll followed by a finishing poll, and the
finishing poll returns `JustFinishedRendering` while dropping the handle;
after it, a further poll still returns `JustFinishedRendering`. -/
theorem run_snippet_poll_lifecycle_witness :
    ((RunSnippetOperation.poll_state exampleFns
        (RunSnippetOperation.start_render RunSnippetOperation.initialInner
          (.ok ())).1 runningEnv).2).rank ≤
      ((RunSnippetOperation.poll_state exampleFns
        (RunSnippetOperation.runSteps exampleFns
          (RunSnippetOperation.poll_state exampleFns
            (RunSnippetOperation.start_render RunSnippetOperation.initialInner
              (.ok ())).1 runningEnv).1 [.poll runningEnv])
        finishedEnv).2).rank ∧
    (RunSnippetOperation.poll_state exampleFns
        (RunSnippetOperation.start_render RunSnippetOperation.initialInner
          (.ok ())).1 finishedEnv).2 = .justFinishedRendering ∧
    (RunSnippetOperation.poll_state exampleFns
        (RunSnippetOperation.start_render RunSnippetOperation.initialInner
          (.ok ())).1 finishedEnv).1.handle = none ∧
    (RunSnippetOperation.poll_state exampleFns
        (RunSnippetOperation.runSteps exampleFns
          (RunSnippetOperation.poll_state exampleFns
            (RunSnippetOperation.start_render RunSnippetOperation.initialInner
              (.ok ())).1 finishedEnv).1 [])
        finishedEnv).2 = .justFinishedRendering :=
  ⟨(run_snippet_poll_lifecycle exampleFns).2.1
      (RunSnippetOperation.start_render RunSnippetOperation.initialInner
        (.ok ())).1 runningEnv [.poll runningEnv] finishedEnv
      ⟨[.start (.ok ())], rfl⟩,
   ((run_snippet_poll_lifecycle exampleFns).2.2.1
      (RunSnippetOperation.start_render RunSnippetOperation.initialInner
        (.ok ())).1 finishedEnv rfl rfl).1,
   ((run_snippet_poll_lifecycle exampleFns).2.2.1
      (RunSnippetOperation.start_render RunSnippetOperation.initialInner
        (.ok ())).1 finishedEnv rfl rfl).2,
   (run_snippet_poll_lifecycle exampleFns).2.2.2
      (RunSnippetOperation.start_render RunSnippetOperation.initialInner
        (.ok ())).1 finishedEnv [] finishedEnv rfl rfl⟩
